import Mathlib

/-!
Verification of the database command layer of the stock-pipe-line repository
(`src/db/commander.py`), shallowly embedded in Lean.

Conventions of the embedding:
* Python exceptions become `Except PyErr`.
* The SQL composed through `psycopg2.sql` objects is modelled as a list of
  `Frag`ments: `Frag.ident` for `sql.Identifier` (rendered double-quoted),
  `Frag.raw` for `sql.SQL` literal text, `Frag.placeholder` for
  `sql.Placeholder` / a literal `%s`.
* Python dicts (which preserve insertion order) become association lists.
-/

namespace StockPipe

/-- Python exception values that `commander.py` can raise or catch. -/
inductive PyErr : Type where
  | valueError (msg : String)
  | pgError (msg : String)
  | connectionError (msg : String)
  | keyError (key : String)
  deriving DecidableEq, Repr

deriving instance DecidableEq for Except

/-! ## Identifier validation (`_check_ident`, commander.py lines 10-36)

The source compiles `re.compile(r'^[a-zA-Z_][a-zA-Z0-9_]*$')` and raises
`ValueError` when `not name or not _IDENT.match(name)`.  Python's `$`
(without `re.MULTILINE`) matches at the end of the string *or just before a
newline at the end of the string*, so the regex also accepts a matching core
followed by one trailing `'\n'`; the embedding reproduces that. -/

/-- Character class `[a-zA-Z_]` allowed in the first position. -/
def isIdentStart (c : Char) : Bool :=
  (('A' ≤ c && c ≤ 'Z') || ('a' ≤ c && c ≤ 'z') || c = '_')

/-- Character class `[a-zA-Z0-9_]` allowed after the first position. -/
def isIdentCont (c : Char) : Bool :=
  isIdentStart c || ('0' ≤ c && c ≤ '9')

/-- A full (newline-free) match of `[a-zA-Z_][a-zA-Z0-9_]*`. -/
def identCore : List Char → Bool
  | [] => false
  | c :: cs => isIdentStart c && cs.all isIdentCont

/-- The test `_IDENT.match(name)` as a Boolean: Python's end-of-string `$` also
matches just before a single newline at the very end of the string. -/
def identMatch (s : String) : Bool :=
  identCore s.data ||
    (match s.data.getLast? with
     | some c => c = '\n' && identCore s.data.dropLast
     | none => false)

/-- Validation `_check_ident` (commander.py lines 12-36): returns the name unchanged on
a match, raises `ValueError` otherwise (before any I/O). -/
def check_ident (name : String) : Except PyErr String :=
  if name.data.isEmpty || !identMatch name then
    .error (.valueError ("Invalid SQL identifier: " ++ name))
  else
    .ok name

/-- Validation `_check_ident` applied to a whole list (a Python `for` loop of checks):
stops at, and propagates, the first invalid name. -/
def checkAll : List String → Except PyErr Unit
  | [] => .ok ()
  | c :: cs =>
      match check_ident c with
      | .error e => .error e
      | .ok _ => checkAll cs

/-- Does a string contain any (Python `str.strip`) whitespace character? -/
def containsWhitespace (s : String) : Bool :=
  s.data.any (fun c => c = ' ' || c = '\t' || c = '\n' || c = '\r' ||
    c = '\x0b' || c = '\x0c')

/-! ## SQL composition (`psycopg2.sql`)

A composed statement is a list of fragments.  `psycopg2.sql.Identifier`
renders double-quoted; `sql.SQL` is literal text spliced as-is;
`sql.Placeholder` renders as `%s` with the value carried separately in the
bound parameter list. -/

/-- One fragment of a composed SQL statement. -/
inductive Frag : Type where
  | ident (s : String)
  | raw (s : String)
  | placeholder
  deriving DecidableEq, Repr

/-- Render a composed statement to concrete SQL text, the way
`psycopg2.sql` does (`Identifier` double-quoted, `Placeholder` as `%s`). -/
def renderFrag : Frag → String
  | .ident s => "\"" ++ s ++ "\""
  | .raw s => s
  | .placeholder => "%s"

/-- Render a whole statement. -/
def renderSQL (q : List Frag) : String :=
  String.join (q.map renderFrag)

/-- Join `sql.SQL(sep).join(parts)`: interpose a separator fragment list. -/
def sepJoin (sep : List Frag) : List (List Frag) → List Frag
  | [] => []
  | [x] => x
  | x :: y :: ys => x ++ sep ++ sepJoin sep (y :: ys)

/-- A comma-separated list of identifiers (`sql.SQL(", ").join(Identifier)`). -/
def identJoin (cs : List String) : List Frag :=
  sepJoin [.raw ", "] (cs.map (fun c => [.ident c]))

/-- A comma-separated list of placeholders. -/
def phJoin (cs : List String) : List Frag :=
  sepJoin [.raw ", "] (cs.map (fun _ => [.placeholder]))

/-- A comma-separated `"col" = EXCLUDED."col"` update list. -/
def updJoin (cs : List String) : List Frag :=
  sepJoin [.raw ", "] (cs.map (fun c => [.ident c, .raw " = EXCLUDED.", .ident c]))

/-! ## Query builders

Each builder reproduces the statement template of the corresponding source
method; validation is performed by the callers below, exactly where and in
the order the source performs it. -/

/-- The statement built by `enter_record` (commander.py lines 299-310):
`INSERT INTO {table} ({cols}) VALUES ({ph}) ON CONFLICT DO UPDATE SET
{updates}` — note: no conflict target after `ON CONFLICT`. -/
def enter_record_query (table_name : String) (cols : List String) : List Frag :=
  [.raw "INSERT INTO ", .ident table_name, .raw " ("] ++ identJoin cols ++
  [.raw ") VALUES ("] ++ phJoin cols ++
  [.raw ") ", .raw "ON CONFLICT DO UPDATE SET "] ++ updJoin cols

/-- The statement built by `bulk_insert` (commander.py lines 352-383):
the base `INSERT` plus, depending on the flags, an
`ON CONFLICT (…) DO UPDATE SET …`, an `ON CONFLICT (…) DO NOTHING`,
or no conflict clause. -/
def bulk_insert_query (table_name : String) (columns : List String)
    (conflict_columns : List String) (upsert : Bool) : List Frag :=
  let base : List Frag :=
    [.raw "INSERT INTO ", .ident table_name, .raw " ("] ++ identJoin columns ++
    [.raw ") VALUES ("] ++ phJoin columns ++ [.raw ")"]
  if upsert then
    let update_columns := columns.filter (fun c => !conflict_columns.contains c)
    base ++ [.raw " ", .raw "ON CONFLICT ("] ++ identJoin conflict_columns ++
      [.raw ") DO UPDATE SET "] ++ updJoin update_columns
  else if conflict_columns ≠ [] then
    base ++ [.raw " ", .raw "ON CONFLICT ("] ++ identJoin conflict_columns ++
      [.raw ") DO NOTHING"]
  else
    base

/-- The statement built by `delete_table` (commander.py lines 446-448). -/
def delete_table_query (table_name : String) : List Frag :=
  [.raw "DROP TABLE IF EXISTS ", .ident table_name, .raw " CASCADE"]

/-- The fixed catalog query text of `table_exists` (commander.py lines
478-484); the table name travels as a bound parameter (`%s`), never spliced. -/
def table_exists_sql : String :=
  "SELECT EXISTS ( SELECT FROM information_schema.tables WHERE table_schema = 'public' AND table_name = %s );"

/-- The statement of `table_exists`: a single fixed raw fragment. -/
def table_exists_query : List Frag :=
  [.raw table_exists_sql]

/-- The statement built by `create_table` (commander.py lines 257-267):
the table name is an `Identifier`, but the joined column definitions are
spliced through `sql.SQL(columns_sql)` as one raw fragment. -/
def create_table_query (table_name : String) (columns_sql : String)
    (if_not_exists : Bool) : List Frag :=
  if if_not_exists then
    [.raw "CREATE TABLE IF NOT EXISTS ", .ident table_name, .raw " (",
     .raw columns_sql, .raw ")"]
  else
    [.raw "CREATE TABLE ", .ident table_name, .raw " (",
     .raw columns_sql, .raw ")"]

/-- The fixed template literals that the four parameterised operations
(`enter_record`, `bulk_insert`, `delete_table`, `table_exists`) splice as
raw SQL text; every one of them is caller-independent. -/
def safeTemplates : List String :=
  ["INSERT INTO ", " (", ", ", ") VALUES (", ")", ") ",
   "ON CONFLICT DO UPDATE SET ", " = EXCLUDED.", " ",
   "ON CONFLICT (", ") DO UPDATE SET ", ") DO NOTHING",
   "DROP TABLE IF EXISTS ", " CASCADE", table_exists_sql]

/-! ## Commander operations: validation and statement assembly

Each `*_plan` function performs exactly the validations of the source
method, in source order, and produces the statement together with its bound
parameter list (`none` when the source returns without issuing any
statement).  Values are polymorphic in `α` (Python scalars). -/

/-- Method `enter_record` up to the point the statement is handed to
`execute_query` (commander.py lines 275-312): validate the table name,
reject an empty record, validate every column name, then build the
parameterised upsert with the record's values as bound parameters. -/
def enter_record_plan {α : Type} (table_name : String)
    (values : List (String × α)) : Except PyErr (List Frag × List α) :=
  match check_ident table_name with
  | .error e => .error e
  | .ok _ =>
      if values.isEmpty then
        .error (.valueError ("No values to insert into " ++ table_name))
      else
        match checkAll (values.map Prod.fst) with
        | .error e => .error e
        | .ok _ =>
            .ok (enter_record_query table_name (values.map Prod.fst),
              values.map Prod.snd)

/-- Python's `needle in haystack` substring test on character lists. -/
def isSubstrOf (needle : List Char) : List Char → Bool
  | [] => needle.isEmpty
  | c :: cs => needle.isPrefixOf (c :: cs) || isSubstrOf needle cs

/-- Python's `col_name.upper()`, character-wise (ASCII identifiers). -/
def upperChars (s : String) : List Char :=
  s.data.map Char.toUpper

/-- Is one of `UNIQUE`, `PRIMARY KEY`, `FOREIGN KEY`, `CHECK` a substring
of the upper-cased column name? (commander.py line 248) -/
def hasConstraintKeyword (col_name : String) : Bool :=
  ["UNIQUE", "PRIMARY KEY", "FOREIGN KEY", "CHECK"].any
    (fun kw => isSubstrOf kw.data (upperChars col_name))

/-- Python truthiness of `col_type.strip()`: does the descriptor contain a
non-whitespace character? -/
def stripNonempty (s : String) : Bool :=
  s.data.any (fun c => !(c = ' ' || c = '\t' || c = '\n' || c = '\r' ||
    c = '\x0b' || c = '\x0c'))

/-- One iteration of `create_table`'s definition loop (commander.py lines
245-253): a non-empty descriptor is a column (name validated unless it
embeds a constraint keyword) rendered `"{col_name} {col_type}"`; an empty
descriptor marks `col_name` itself as a bare table-level constraint. -/
def colDef (entry : String × String) : Except PyErr String :=
  if stripNonempty entry.2 then
    if hasConstraintKeyword entry.1 then
      .ok (entry.1 ++ " " ++ entry.2)
    else
      match check_ident entry.1 with
      | .error e => .error e
      | .ok _ => .ok (entry.1 ++ " " ++ entry.2)
  else
    .ok entry.1

/-- The definition loop over all schema entries. -/
def colDefs : List (String × String) → Except PyErr (List String)
  | [] => .ok []
  | e :: es =>
      match colDef e with
      | .error e1 => .error e1
      | .ok d =>
          match colDefs es with
          | .error e1 => .error e1
          | .ok ds => .ok (d :: ds)

/-- Method `create_table` up to statement assembly (commander.py lines 227-269):
validates the table name, returns `none` (printing, not raising) on an
empty schema, then builds `CREATE TABLE [IF NOT EXISTS] …` with the joined
definitions spliced as raw text.  `ValueError` from a column-name check
propagates (the surrounding `except` only catches `psycopg2.Error`). -/
def create_table_plan (table_name : String) (cols : List (String × String))
    (if_not_exists : Bool) : Except PyErr (Option (List Frag)) :=
  match check_ident table_name with
  | .error e => .error e
  | .ok _ =>
      if cols.isEmpty then
        .ok none
      else
        match colDefs cols with
        | .error e => .error e
        | .ok ds =>
            .ok (some (create_table_query table_name
              (String.intercalate ", " ds) if_not_exists))

/-- Method `delete_table` statement assembly (commander.py lines 436-449). -/
def delete_table_plan (table_name : String) : Except PyErr (List Frag) :=
  match check_ident table_name with
  | .error e => .error e
  | .ok _ => .ok (delete_table_query table_name)

/-- Method `table_exists` statement assembly (commander.py lines 466-486): the
table name is validated and then passed as the single bound parameter. -/
def table_exists_plan (table_name : String) :
    Except PyErr (List Frag × List String) :=
  match check_ident table_name with
  | .error e => .error e
  | .ok _ => .ok (table_exists_query, [table_name])

/-- Method `bulk_insert` up to the point the statement is handed to
`executemany` (commander.py lines 314-386), in source order: validate the
table name, validate every column, return `none` on an empty batch, reject
upsert mode without conflict columns, validate the conflict columns, then
build the statement with the batch as bound parameter rows. -/
def bulk_insert_plan {α : Type} (table_name : String) (columns : List String)
    (values_list : List (List α)) (conflict_columns : List String)
    (upsert : Bool) :
    Except PyErr (Option (List Frag × List (List α))) :=
  match check_ident table_name with
  | .error e => .error e
  | .ok _ =>
      match checkAll columns with
      | .error e => .error e
      | .ok _ =>
          if values_list.isEmpty then
            .ok none
          else if upsert && conflict_columns.isEmpty then
            .error (.valueError
              "bulk_insert with upsert=True requires conflict_columns parameter")
          else
            match checkAll conflict_columns with
            | .error e => .error e
            | .ok _ =>
                .ok (some
                  (bulk_insert_query table_name columns conflict_columns upsert,
                    values_list))

/-! ## Store model for `executemany`

A table is a list of rows, each aligned with the batch's column list.
`psycopg2`'s `cursor.executemany` runs the single-row statement once per
parameter tuple and accumulates `rowcount` over the runs, so the reported
count is the sum of the per-row affected counts. -/

/-- The key of a row under the conflict columns: the row values at the
positions of the conflict columns within the batch's column list. -/
def keyOf {α : Type} (columns conflict_columns : List String)
    (row : List α) : List (Option α) :=
  conflict_columns.map (fun c => (columns.indexOf? c).bind (row.get? ·))

/-- Replace the first row whose conflict key matches, leaving others. -/
def updateRow {α : Type} [DecidableEq α] (columns conflict_columns : List String)
    (row : List α) : List (List α) → List (List α)
  | [] => []
  | r :: rs =>
      if keyOf columns conflict_columns r = keyOf columns conflict_columns row
      then row :: rs
      else r :: updateRow columns conflict_columns row rs

/-- Execute the single-row statement of `bulk_insert` on one parameter
tuple: with `upsert` the row is inserted or (on a conflict-key match)
updated, affecting exactly one row either way; with `DO NOTHING`
(`upsert = false`, conflict columns given) a conflicting row affects zero
rows; with no conflict clause the row is appended. -/
def execOne {α : Type} [DecidableEq α] (upsert : Bool)
    (columns conflict_columns : List String)
    (t : List (List α)) (row : List α) : List (List α) × Nat :=
  if upsert then
    if t.any (fun r => keyOf columns conflict_columns r =
        keyOf columns conflict_columns row) then
      (updateRow columns conflict_columns row t, 1)
    else (t ++ [row], 1)
  else if conflict_columns ≠ [] then
    if t.any (fun r => keyOf columns conflict_columns r =
        keyOf columns conflict_columns row) then
      (t, 0)
    else (t ++ [row], 1)
  else
    (t ++ [row], 1)

/-- Execution `cursor.executemany` over the whole batch, threading the table and
summing the per-statement row counts (psycopg2 accumulates `rowcount`
across the runs of `executemany`). -/
def execMany {α : Type} [DecidableEq α] (upsert : Bool)
    (columns conflict_columns : List String)
    (t : List (List α)) : List (List α) → List (List α) × Nat
  | [] => (t, 0)
  | row :: rows =>
      let s1 := execOne upsert columns conflict_columns t row
      let s2 := execMany upsert columns conflict_columns s1.1 rows
      (s2.1, s1.2 + s2.2)

/-- Method `bulk_insert` end to end (commander.py lines 314-391): the plan's
validations and statement, then execution against the store.  The store is
`some table` when the statement can execute, `none` when the store rejects
it (a `psycopg2.Error`, e.g. a missing table): the `except psycopg2.Error`
arm prints and returns `0`, after `get_cursor` has rolled back. -/
def bulk_insert {α : Type} [DecidableEq α] (table_name : String)
    (columns : List String) (values_list : List (List α))
    (conflict_columns : List String) (upsert : Bool)
    (store : Option (List (List α))) :
    Except PyErr (Nat × Option (List (List α))) :=
  match bulk_insert_plan table_name columns values_list conflict_columns upsert with
  | .error e => .error e
  | .ok none => .ok (0, store)
  | .ok (some (_q, rows)) =>
      match store with
      | none => .ok (0, none)
      | some t =>
          let s := execMany upsert columns conflict_columns t rows
          .ok (s.2, some s.1)

/-- Extraction `tuple(record[col] for col in columns)` for one record: Python raises
`KeyError` on a missing column. -/
def extractRow {α : Type} (record : List (String × α)) :
    List String → Except PyErr (List α)
  | [] => .ok []
  | c :: cs =>
      match record.lookup c with
      | none => .error (.keyError c)
      | some v =>
          match extractRow record cs with
          | .error e => .error e
          | .ok vs => .ok (v :: vs)

/-- The tuple-conversion loop of `bulk_insert_dicts`. -/
def extractRows {α : Type} (columns : List String) :
    List (List (String × α)) → Except PyErr (List (List α))
  | [] => .ok []
  | r :: rs =>
      match extractRow r columns with
      | .error e => .error e
      | .ok v =>
          match extractRows columns rs with
          | .error e => .error e
          | .ok vs => .ok (v :: vs)

/-- Method `bulk_insert_dicts` (commander.py lines 393-434): an empty record list
returns `0` before anything else; otherwise the column order comes from the
first record, every record is converted to a tuple in that order, and the
batch is delegated to `bulk_insert`. -/
def bulk_insert_dicts {α : Type} [DecidableEq α] (table_name : String)
    (records : List (List (String × α))) (conflict_columns : List String)
    (upsert : Bool) (store : Option (List (List α))) :
    Except PyErr (Nat × Option (List (List α))) :=
  match records with
  | [] => .ok (0, store)
  | r0 :: _ =>
      let columns := r0.map Prod.fst
      match extractRows columns records with
      | .error e => .error e
      | .ok values_list =>
          bulk_insert table_name columns values_list conflict_columns upsert store

/-! ## Transaction scope (`get_cursor`, commander.py lines 154-177)

The scope is entered with a live connection (that is what
`get_connection` yields).  The caller's statements are abstracted as an
outcome `body : Except PyErr Unit`.  The scope records its observable
actions as a trace of events. -/

/-- A database connection, reduced to the state the scope manipulates. -/
structure Conn : Type where
  isolation : Nat
  deriving DecidableEq, Repr

/-- Observable actions of the transaction scope. -/
inductive Event : Type where
  | setIso (lvl : Nat)
  | commitTx
  | rollbackTx
  | closeCursor
  deriving DecidableEq, Repr

/-- The outcome of a pass through the scope. -/
structure ScopeOut : Type where
  result : Except PyErr Unit
  trace : List Event
  conn : Conn
  deriving Repr

/-- Scope `get_cursor` (commander.py lines 154-177): record the old isolation
level, set the requested one, run the body; on success commit when the
`commit` flag is set, on failure roll back and re-raise; in the `finally`
block close the cursor and restore the old isolation level. -/
def get_cursor (commitFlag : Bool) (isolation_level : Nat) (conn : Conn)
    (body : Except PyErr Unit) : ScopeOut :=
  let old := conn.isolation
  match body with
  | .ok _ =>
      { result := .ok ()
        trace := [Event.setIso isolation_level] ++
          (if commitFlag then [Event.commitTx] else []) ++
          [Event.closeCursor, Event.setIso old]
        conn := { isolation := old } }
  | .error e =>
      { result := .error e
        trace := [Event.setIso isolation_level, Event.rollbackTx,
          Event.closeCursor, Event.setIso old]
        conn := { isolation := old } }

/-! ## Connection pool

Modelled from the spec: the pooled commander (`AsyncCommander` and the
`min_conn`/`max_conn` pool that `test_script.py` and `commander.py`'s own
`__main__` refer to) is absent from `src/`; `src/db/commander.py` holds a
single direct connection.  Per §3/§4.1 of the spec, the pool is a bounded
set of connections with `min_size`/`max_size`, an `available` set and a
`leased` set; `acquire` leases one available connection (failing when none
is available) and `release` returns a leased connection. -/

structure Pool : Type where
  minSize : Nat
  maxSize : Nat
  available : List Nat
  leased : List Nat
  deriving Repr

/-- Total number of connections currently owned by the pool. -/
def Pool.total (p : Pool) : Nat := p.available.length + p.leased.length

/-- Pool well-formedness: the spec's size invariant plus distinctness of
the physical connections across the two sets. -/
def Pool.WF (p : Pool) : Prop :=
  p.minSize ≤ p.total ∧ p.total ≤ p.maxSize ∧ (p.available ++ p.leased).Nodup

/-- Operation `acquire`: lease one available connection; fails when none is free. -/
def Pool.acquire (p : Pool) : Option (Nat × Pool) :=
  match p.available with
  | [] => none
  | c :: rest => some (c, { p with available := rest, leased := c :: p.leased })

/-- Operation `release`: return a leased connection to the available set; releasing a
connection the pool did not lease is a no-op (idempotent release). -/
def Pool.release (p : Pool) (c : Nat) : Pool :=
  if c ∈ p.leased then
    { p with available := c :: p.available, leased := p.leased.erase c }
  else p

/-- One pool operation issued by some caller. -/
inductive PoolOp : Type where
  | acq
  | rel (c : Nat)
  deriving Repr

/-- Apply one operation (a failed acquire leaves the pool unchanged). -/
def Pool.step (p : Pool) : PoolOp → Pool
  | .acq => match p.acquire with
            | none => p
            | some (_, p1) => p1
  | .rel c => p.release c

/-- Run a sequence of operations. -/
def Pool.run (p : Pool) : List PoolOp → Pool
  | [] => p
  | op :: ops => (p.step op).run ops

/-! ## Shared lemmas -/

/-- Characterisation of a plain (newline-free) core match. -/
lemma identCore_iff (l : List Char) :
    identCore l = true ↔
      ∃ c cs, l = c :: cs ∧ isIdentStart c = true ∧
        ∀ x ∈ cs, isIdentCont x = true := by
  cases l with
  | nil => simp [identCore]
  | cons c cs =>
      simp only [identCore, Bool.and_eq_true, List.all_eq_true]
      constructor
      · rintro ⟨h1, h2⟩
        exact ⟨c, cs, rfl, h1, h2⟩
      · rintro ⟨c1, cs1, heq, h1, h2⟩
        injection heq with h3 h4
        subst h3; subst h4
        exact ⟨h1, h2⟩

/-- What `_IDENT.match` accepts: a core match, or a core match followed by
one trailing newline (Python's `$`). -/
lemma identMatch_iff (s : String) :
    identMatch s = true ↔
      (identCore s.data = true ∨
        ∃ l, s.data = l ++ ['\n'] ∧ identCore l = true) := by
  unfold identMatch
  rcases hg : s.data.getLast? with _ | c
  · have hnil : s.data = [] := List.getLast?_eq_none_iff.mp hg
    simp [hnil]
  · simp only [Bool.or_eq_true, Bool.and_eq_true, decide_eq_true_eq]
    constructor
    · rintro (h | ⟨hc, hcore⟩)
      · exact Or.inl h
      · subst hc
        rcases List.getLast?_eq_some_iff.mp hg with ⟨l, hl⟩
        refine Or.inr ⟨l, hl, ?_⟩
        rwa [hl, List.dropLast_concat] at hcore
    · rintro (h | ⟨l, hl, hcore⟩)
      · exact Or.inl h
      · have hc : c = '\n' := by
          have : s.data.getLast? = some '\n' := by simp [hl]
          rw [hg] at this
          exact Option.some_inj.mp this
        refine Or.inr ⟨hc, ?_⟩
        rw [hl, List.dropLast_concat]
        exact hcore

/-- Validation `_check_ident` succeeds exactly when the regex matches. -/
lemma check_ident_isOk (s : String) : (check_ident s).isOk = identMatch s := by
  unfold check_ident
  rcases hm : identMatch s with _ | _
  · simp [hm, Except.isOk, Except.toBool]
  · have hne : s.data ≠ [] := by
      intro he
      rw [identMatch_iff] at hm
      rcases hm with h | ⟨l, hl, _⟩
      · rw [he] at h; simp [identCore] at h
      · rw [he] at hl; exact absurd hl (by simp)
    simp [hm, List.isEmpty_iff, hne, Except.isOk, Except.toBool]

/-- On success, `_check_ident` returns its argument unchanged. -/
lemma check_ident_ok_eq (s r : String) (h : check_ident s = .ok r) : r = s := by
  unfold check_ident at h
  split at h
  · exact absurd h (by simp)
  · exact (Except.ok.injEq _ _ ▸ h).symm

/-- A successful validation is `_check_ident` returning the name itself. -/
lemma check_ident_ok_of_isOk (s : String) (h : (check_ident s).isOk = true) :
    check_ident s = .ok s := by
  unfold check_ident at h ⊢
  split at h
  case isTrue hc => exact absurd h (by simp [Except.isOk, Except.toBool])
  case isFalse hc => simp [hc]

/-- The validation loop succeeds exactly when every name validates. -/
lemma checkAll_ok_iff (cs : List String) :
    checkAll cs = .ok () ↔ ∀ c ∈ cs, (check_ident c).isOk = true := by
  induction cs with
  | nil => simp [checkAll]
  | cons c cs ih =>
      constructor
      · intro h
        unfold checkAll at h
        rcases hc : check_ident c with e | r
        · rw [hc] at h; exact absurd h (by simp)
        · rw [hc] at h
          intro x hx
          rcases List.mem_cons.mp hx with rfl | hx
          · simp [hc, Except.isOk, Except.toBool]
          · exact (ih.mp h) x hx
      · intro h
        unfold checkAll
        rw [check_ident_ok_of_isOk c (h c (by simp))]
        exact ih.mpr (fun x hx => h x (List.mem_cons_of_mem _ hx))

/-- Anything in a joined list comes from the separator or from a part. -/
lemma mem_sepJoin {a : Frag} {sep : List Frag} :
    ∀ {parts : List (List Frag)}, a ∈ sepJoin sep parts →
      a ∈ sep ∨ ∃ p ∈ parts, a ∈ p := by
  intro parts
  induction parts with
  | nil => intro h; exact absurd h (by simp [sepJoin])
  | cons x xs ih =>
      cases xs with
      | nil =>
          intro h
          exact Or.inr ⟨x, by simp, by simpa [sepJoin] using h⟩
      | cons y ys =>
          intro h
          rw [sepJoin] at h
          rcases List.mem_append.mp h with h1 | h1
          · rcases List.mem_append.mp h1 with h2 | h2
            · exact Or.inr ⟨x, by simp, h2⟩
            · exact Or.inl h2
          · rcases ih h1 with h2 | ⟨p, hp, hap⟩
            · exact Or.inl h2
            · exact Or.inr ⟨p, List.mem_cons_of_mem _ hp, hap⟩

/-- Fragments of a joined identifier list. -/
lemma mem_identJoin {a : Frag} {cs : List String} (h : a ∈ identJoin cs) :
    a = .raw ", " ∨ ∃ c ∈ cs, a = .ident c := by
  rcases mem_sepJoin h with h1 | ⟨p, hp, hap⟩
  · exact Or.inl (by simpa using h1)
  · rcases List.mem_map.mp hp with ⟨c, hc, rfl⟩
    exact Or.inr ⟨c, hc, by simpa using hap⟩

/-- Fragments of a joined placeholder list. -/
lemma mem_phJoin {a : Frag} {cs : List String} (h : a ∈ phJoin cs) :
    a = .raw ", " ∨ a = .placeholder := by
  rcases mem_sepJoin h with h1 | ⟨p, hp, hap⟩
  · exact Or.inl (by simpa using h1)
  · rcases List.mem_map.mp hp with ⟨c, _, rfl⟩
    exact Or.inr (by simpa using hap)

/-- Fragments of a joined `EXCLUDED` update list. -/
lemma mem_updJoin {a : Frag} {cs : List String} (h : a ∈ updJoin cs) :
    a = .raw ", " ∨ a = .raw " = EXCLUDED." ∨ ∃ c ∈ cs, a = .ident c := by
  rcases mem_sepJoin h with h1 | ⟨p, hp, hap⟩
  · exact Or.inl (by simpa using h1)
  · rcases List.mem_map.mp hp with ⟨c, hc, rfl⟩
    have hap2 : a = Frag.ident c ∨ a = Frag.raw " = EXCLUDED." ∨
        a = Frag.ident c := by simpa using hap
    rcases hap2 with h2 | h2 | h2
    · exact Or.inr (Or.inr ⟨c, hc, h2⟩)
    · exact Or.inr (Or.inl h2)
    · exact Or.inr (Or.inr ⟨c, hc, h2⟩)

/-- The fragment classification that C1 asserts of a statement: identifiers
that passed validation, fixed template text, or a parameter placeholder. -/
def SafeFrags (q : List Frag) : Prop :=
  ∀ a ∈ q, (∃ s, a = .ident s ∧ (check_ident s).isOk = true) ∨
    (∃ s, a = .raw s ∧ s ∈ safeTemplates) ∨ a = .placeholder

/-- Concatenation preserves the safe-fragment classification. -/
lemma SafeFrags.append {q1 q2 : List Frag} (h1 : SafeFrags q1)
    (h2 : SafeFrags q2) : SafeFrags (q1 ++ q2) := by
  intro a ha
  rcases List.mem_append.mp ha with h | h
  · exact h1 a h
  · exact h2 a h

/-- A single template literal is safe. -/
lemma SafeFrags.rawTemplate {s : String} (h : s ∈ safeTemplates) :
    SafeFrags [Frag.raw s] := by
  intro a ha
  rcases List.mem_singleton.mp ha with rfl
  exact Or.inr (Or.inl ⟨s, rfl, h⟩)

/-- A single validated identifier is safe. -/
lemma SafeFrags.identOf {s : String} (h : (check_ident s).isOk = true) :
    SafeFrags [Frag.ident s] := by
  intro a ha
  rcases List.mem_singleton.mp ha with rfl
  exact Or.inl ⟨s, rfl, h⟩

/-- A joined identifier list over validated names is safe. -/
lemma SafeFrags.identJoinOf {cs : List String}
    (h : ∀ c ∈ cs, (check_ident c).isOk = true) :
    SafeFrags (identJoin cs) := by
  intro a ha
  rcases mem_identJoin ha with h1 | ⟨c, hc, h1⟩
  · exact Or.inr (Or.inl ⟨_, h1, by decide⟩)
  · exact Or.inl ⟨c, h1, h c hc⟩

/-- A joined placeholder list is safe. -/
lemma SafeFrags.phJoinOf (cs : List String) : SafeFrags (phJoin cs) := by
  intro a ha
  rcases mem_phJoin ha with h1 | h1
  · exact Or.inr (Or.inl ⟨_, h1, by decide⟩)
  · exact Or.inr (Or.inr h1)

/-- A joined `EXCLUDED` update list over validated names is safe. -/
lemma SafeFrags.updJoinOf {cs : List String}
    (h : ∀ c ∈ cs, (check_ident c).isOk = true) :
    SafeFrags (updJoin cs) := by
  intro a ha
  rcases mem_updJoin ha with h1 | h1 | ⟨c, hc, h1⟩
  · exact Or.inr (Or.inl ⟨_, h1, by decide⟩)
  · exact Or.inr (Or.inl ⟨_, h1, by decide⟩)
  · exact Or.inl ⟨c, h1, h c hc⟩

/-- The `enter_record` statement is built only from validated identifiers,
fixed template text and placeholders. -/
lemma enter_record_query_safe {tn : String} {cols : List String}
    (htn : (check_ident tn).isOk = true)
    (hcols : ∀ c ∈ cols, (check_ident c).isOk = true) :
    SafeFrags (enter_record_query tn cols) := by
  unfold enter_record_query
  have h1 : SafeFrags [Frag.raw "INSERT INTO ", .ident tn, .raw " ("] := by
    have := (SafeFrags.rawTemplate (s := "INSERT INTO ") (by decide)).append
      ((SafeFrags.identOf htn).append
        (SafeFrags.rawTemplate (s := " (") (by decide)))
    simpa using this
  have h2 : SafeFrags [Frag.raw ") ", Frag.raw "ON CONFLICT DO UPDATE SET "] := by
    have := (SafeFrags.rawTemplate (s := ") ") (by decide)).append
      (SafeFrags.rawTemplate (s := "ON CONFLICT DO UPDATE SET ") (by decide))
    simpa using this
  exact ((((h1.append (SafeFrags.identJoinOf hcols)).append
    (SafeFrags.rawTemplate (s := ") VALUES (") (by decide))).append
    (SafeFrags.phJoinOf cols)).append h2).append (SafeFrags.updJoinOf hcols)

/-- The `bulk_insert` statement is built only from validated identifiers,
fixed template text and placeholders. -/
lemma bulk_insert_query_safe {tn : String} {columns cc : List String}
    {ups : Bool} (htn : (check_ident tn).isOk = true)
    (hcols : ∀ c ∈ columns, (check_ident c).isOk = true)
    (hcc : ∀ c ∈ cc, (check_ident c).isOk = true) :
    SafeFrags (bulk_insert_query tn columns cc ups) := by
  have h1 : SafeFrags [Frag.raw "INSERT INTO ", .ident tn, .raw " ("] := by
    have := (SafeFrags.rawTemplate (s := "INSERT INTO ") (by decide)).append
      ((SafeFrags.identOf htn).append
        (SafeFrags.rawTemplate (s := " (") (by decide)))
    simpa using this
  have hbase : SafeFrags
      ([Frag.raw "INSERT INTO ", .ident tn, .raw " ("] ++ identJoin columns ++
        [.raw ") VALUES ("] ++ phJoin columns ++ [.raw ")"]) :=
    (((h1.append (SafeFrags.identJoinOf hcols)).append
      (SafeFrags.rawTemplate (s := ") VALUES (") (by decide))).append
      (SafeFrags.phJoinOf columns)).append
      (SafeFrags.rawTemplate (s := ")") (by decide))
  have hupd : ∀ c ∈ columns.filter (fun c => !cc.contains c),
      (check_ident c).isOk = true :=
    fun c hc => hcols c (List.mem_of_mem_filter hc)
  unfold bulk_insert_query
  by_cases hu : ups
  · rw [if_pos hu]
    have h2 : SafeFrags [Frag.raw " ", Frag.raw "ON CONFLICT ("] := by
      have := (SafeFrags.rawTemplate (s := " ") (by decide)).append
        (SafeFrags.rawTemplate (s := "ON CONFLICT (") (by decide))
      simpa using this
    exact (((hbase.append h2).append (SafeFrags.identJoinOf hcc)).append
      (SafeFrags.rawTemplate (s := ") DO UPDATE SET ") (by decide))).append
      (SafeFrags.updJoinOf hupd)
  · rw [if_neg hu]
    by_cases hc2 : cc ≠ []
    · rw [if_pos hc2]
      have h2 : SafeFrags [Frag.raw " ", Frag.raw "ON CONFLICT ("] := by
        have := (SafeFrags.rawTemplate (s := " ") (by decide)).append
          (SafeFrags.rawTemplate (s := "ON CONFLICT (") (by decide))
        simpa using this
      exact ((hbase.append h2).append (SafeFrags.identJoinOf hcc)).append
        (SafeFrags.rawTemplate (s := ") DO NOTHING") (by decide))
    · rw [if_neg hc2]
      exact hbase

/-! ## Claim theorems -/

/-- C1 (counterexample): the claim says every SQL-building operation
splices only validation-passed strings, but `create_table` splices the
caller-supplied column type descriptor raw: here the built statement
contains the raw text `x NUMERIC); DROP TABLE t2; --`, which never passed
(and would fail) identifier validation and is not a fixed template. -/
theorem c1_counterexample :
    create_table_plan "t" [("x", "NUMERIC); DROP TABLE t2; --")] true =
      .ok (some [Frag.raw "CREATE TABLE IF NOT EXISTS ", .ident "t",
        .raw " (", .raw "x NUMERIC); DROP TABLE t2; --", .raw ")"]) ∧
    (check_ident "x NUMERIC); DROP TABLE t2; --").isOk = false ∧
    "x NUMERIC); DROP TABLE t2; --" ∉ safeTemplates := by
  refine ⟨by decide, by decide, by decide⟩

/-- C1 (amended): `enter_record`, `bulk_insert`, `delete_table` and
`table_exists` splice as raw SQL text only fixed template literals and
identifiers that passed `_check_ident`, and every caller-supplied value
travels in the bound parameter list; `create_table`, by contrast, splices
caller-supplied type/constraint descriptor strings raw (see the
counterexample). -/
theorem c1_only_validated_identifiers_spliced {α : Type}
    (tn : String) (values : List (String × α)) (columns cc : List String)
    (vl : List (List α)) (ups : Bool) :
    (∀ q ps, enter_record_plan tn values = .ok (q, ps) →
      ps = values.map Prod.snd ∧ SafeFrags q)
    ∧ (∀ q rows, bulk_insert_plan tn columns vl cc ups = .ok (some (q, rows)) →
      rows = vl ∧ SafeFrags q)
    ∧ (∀ q, delete_table_plan tn = .ok q → SafeFrags q)
    ∧ (∀ q ps, table_exists_plan tn = .ok (q, ps) →
      ps = [tn] ∧ SafeFrags q) := by
  have hoki : ∀ r : String, check_ident tn = .ok r →
      (check_ident tn).isOk = true := by
    intro r h1
    simp [h1, Except.isOk, Except.toBool]
  refine ⟨?_, ?_, ?_, ?_⟩
  · intro q ps h
    unfold enter_record_plan at h
    rcases h1 : check_ident tn with e | r <;> rw [h1] at h
    · exact absurd h (by simp)
    · by_cases he : values.isEmpty
      · rw [if_pos he] at h
        exact absurd h (by simp)
      · rw [if_neg he] at h
        rcases h2 : checkAll (values.map Prod.fst) with e | u <;> rw [h2] at h
        · exact absurd h (by simp)
        · cases u
          injection h with h3
          have hq : enter_record_query tn (values.map Prod.fst) = q :=
            congrArg Prod.fst h3
          have hp : values.map Prod.snd = ps := congrArg Prod.snd h3
          refine ⟨hp.symm, ?_⟩
          rw [← hq]
          exact enter_record_query_safe (hoki r h1) ((checkAll_ok_iff _).mp h2)
  · intro q rows h
    unfold bulk_insert_plan at h
    rcases h1 : check_ident tn with e | r <;> rw [h1] at h
    · exact absurd h (by simp)
    · rcases h2 : checkAll columns with e | u <;> rw [h2] at h
      · exact absurd h (by simp)
      · cases u
        by_cases he : vl.isEmpty
        · rw [if_pos he] at h
          exact absurd h (by simp)
        · rw [if_neg he] at h
          by_cases hcc0 : ups && cc.isEmpty
          · rw [if_pos hcc0] at h
            exact absurd h (by simp)
          · rw [if_neg hcc0] at h
            rcases h3 : checkAll cc with e | u <;> rw [h3] at h
            · exact absurd h (by simp)
            · cases u
              have h4 := Option.some.inj (Except.ok.inj h)
              have hq : bulk_insert_query tn columns cc ups = q :=
                congrArg Prod.fst h4
              have hrows : vl = rows := congrArg Prod.snd h4
              refine ⟨hrows.symm, ?_⟩
              rw [← hq]
              exact bulk_insert_query_safe (hoki r h1)
                ((checkAll_ok_iff _).mp h2) ((checkAll_ok_iff _).mp h3)
  · intro q h
    unfold delete_table_plan at h
    rcases h1 : check_ident tn with e | r <;> rw [h1] at h
    · exact absurd h (by simp)
    · have hq : delete_table_query tn = q := Except.ok.inj h
      rw [← hq]
      unfold delete_table_query
      have := (SafeFrags.rawTemplate (s := "DROP TABLE IF EXISTS ")
          (by decide)).append ((SafeFrags.identOf (hoki r h1)).append
        (SafeFrags.rawTemplate (s := " CASCADE") (by decide)))
      simpa using this
  · intro q ps h
    unfold table_exists_plan at h
    rcases h1 : check_ident tn with e | r <;> rw [h1] at h
    · exact absurd h (by simp)
    · have h4 := Except.ok.inj h
      have hq : table_exists_query = q := congrArg Prod.fst h4
      have hp : [tn] = ps := congrArg Prod.snd h4
      refine ⟨hp.symm, ?_⟩
      rw [← hq]
      exact SafeFrags.rawTemplate (by decide)

/-- Witness for C1's amended theorem at the repo's own `stock_indicators`
example. -/
theorem c1_witness :
    (["AAPL", "RSI"] : List String) =
      ([("symbol", "AAPL"), ("indicator_type", "RSI")].map Prod.snd) ∧
    SafeFrags (enter_record_query "stock_indicators"
      ["symbol", "indicator_type"]) :=
  (c1_only_validated_identifiers_spliced "stock_indicators"
      [("symbol", "AAPL"), ("indicator_type", "RSI")] [] [] [] true).1
    (enter_record_query "stock_indicators" ["symbol", "indicator_type"])
    ["AAPL", "RSI"] rfl

/-- A single upserted row always affects exactly one row (insert or
update). -/
lemma execOne_upsert_snd {α : Type} [DecidableEq α]
    (columns cc : List String) (t : List (List α)) (r : List α) :
    (execOne true columns cc t r).2 = 1 := by
  unfold execOne
  rcases ht : t.any (fun r0 => decide (keyOf columns cc r0 =
      keyOf columns cc r)) with _ | _ <;> simp [ht]

/-- Execution `executemany` in upsert mode reports exactly one affected row per
parameter tuple, duplicates included. -/
lemma execMany_upsert_count {α : Type} [DecidableEq α]
    (columns cc : List String) :
    ∀ (rows : List (List α)) (t : List (List α)),
      (execMany true columns cc t rows).2 = rows.length := by
  intro rows
  induction rows with
  | nil => intro t; rfl
  | cons r rs ih =>
      intro t
      show (execOne true columns cc t r).2 +
        (execMany true columns cc (execOne true columns cc t r).1 rs).2 =
          (r :: rs).length
      rw [execOne_upsert_snd, ih]
      simp [Nat.add_comm]

/-- In upsert mode with validated inputs, `bulk_insert` reaches the store
and returns the accumulated count. -/
lemma bulk_insert_upsert_eq {α : Type} [DecidableEq α] (tn : String)
    (columns cc : List String) (vl : List (List α)) (t : List (List α))
    (h1 : (check_ident tn).isOk = true)
    (h2 : ∀ c ∈ columns, (check_ident c).isOk = true)
    (h3 : cc ≠ [])
    (h4 : ∀ c ∈ cc, (check_ident c).isOk = true) :
    bulk_insert tn columns vl cc true (some t) =
      .ok ((execMany true columns cc t vl).2,
        some (execMany true columns cc t vl).1) := by
  unfold bulk_insert bulk_insert_plan
  rw [check_ident_ok_of_isOk tn h1, (checkAll_ok_iff columns).mpr h2,
    (checkAll_ok_iff cc).mpr h4]
  have hcc : cc.isEmpty = false := by
    cases cc
    · exact absurd rfl h3
    · rfl
  cases he : vl.isEmpty
  · rcases hx : execMany true columns cc t vl with ⟨t2, n⟩
    simp [he, hcc, hx]
  · have hv : vl = [] := List.isEmpty_iff.mp he
    subst hv
    simp [execMany]

/-- Row extraction preserves the number of records. -/
lemma extractRows_length {α : Type} (columns : List String) :
    ∀ (rs : List (List (String × α))) (vl : List (List α)),
      extractRows columns rs = .ok vl → vl.length = rs.length := by
  intro rs
  induction rs with
  | nil =>
      intro vl h
      have : ([] : List (List α)) = vl := Except.ok.inj h
      simp [← this]
  | cons r rs ih =>
      intro vl h
      unfold extractRows at h
      rcases h1 : extractRow r columns with e | v <;> rw [h1] at h
      · exact absurd h (by simp)
      · rcases h2 : extractRows columns rs with e | vs <;> rw [h2] at h
        · exact absurd h (by simp)
        · have : (v :: vs : List (List α)) = vl := Except.ok.inj h
          rw [← this]
          simp [ih vs h2]

/-- C4 (counterexample): the claim says every string containing whitespace
fails validation, but `"users\n"` contains whitespace (a newline) and
`_check_ident` accepts it unchanged, because Python's `$` also matches just
before a trailing newline. -/
theorem c4_counterexample :
    containsWhitespace "users\n" = true ∧
      check_ident "users\n" = .ok "users\n" := by
  constructor
  · decide
  · rfl

/-- C4 (amended): `_check_ident` succeeds exactly on the strings that are a
non-empty match of `[A-Za-z_][A-Za-z0-9_]*` optionally followed by one
trailing newline (Python `re` `$` semantics), returning the string
unchanged; every other string — in particular any containing `;`, `--`, a
quote, interior whitespace, or a leading digit, and the empty string —
fails before any I/O. -/
theorem c4_check_ident_characterization (s : String) :
    ((check_ident s).isOk = true ↔
      ∃ c cs, (s.data = c :: cs ∨ s.data = c :: (cs ++ ['\n'])) ∧
        isIdentStart c = true ∧ ∀ x ∈ cs, isIdentCont x = true)
    ∧ (∀ r, check_ident s = .ok r → r = s) := by
  constructor
  · rw [check_ident_isOk, identMatch_iff]
    constructor
    · rintro (h | ⟨l, hl, hcore⟩)
      · rcases (identCore_iff _).mp h with ⟨c, cs, heq, h1, h2⟩
        exact ⟨c, cs, Or.inl heq, h1, h2⟩
      · rcases (identCore_iff _).mp hcore with ⟨c, cs, heq, h1, h2⟩
        subst heq
        exact ⟨c, cs, Or.inr hl, h1, h2⟩
    · rintro ⟨c, cs, (heq | heq), h1, h2⟩
      · exact Or.inl ((identCore_iff _).mpr ⟨c, cs, heq, h1, h2⟩)
      · exact Or.inr ⟨c :: cs, heq,
          (identCore_iff _).mpr ⟨c, cs, rfl, h1, h2⟩⟩
  · intro r h
    exact check_ident_ok_eq s r h

/-- Witness for C4's amended theorem at the concrete name `stock_data`. -/
theorem c4_amended_witness : (check_ident "stock_data").isOk = true :=
  (c4_check_ident_characterization "stock_data").1.mpr
    ⟨'s', ['t', 'o', 'c', 'k', '_', 'd', 'a', 't', 'a'],
      Or.inl (by decide), by decide, by decide⟩

/-- C3: through `get_cursor`, a body that completes normally is committed
(with the scope's `commit` flag set, as every caller in the source sets it)
and never rolled back; a body that raises is rolled back — with no commit
anywhere in the trace — and its exception is re-raised to the caller after
the rollback. -/
theorem c3_get_cursor_commit_rollback (lvl : Nat) (conn : Conn)
    (body : Except PyErr Unit) (commitFlag : Bool) :
    (body = .ok () →
      (get_cursor true lvl conn body).result = .ok () ∧
      (get_cursor true lvl conn body).trace =
        [Event.setIso lvl, Event.commitTx, Event.closeCursor,
         Event.setIso conn.isolation])
    ∧ (∀ e, body = .error e →
      (get_cursor commitFlag lvl conn body).result = .error e ∧
      (get_cursor commitFlag lvl conn body).trace =
        [Event.setIso lvl, Event.rollbackTx, Event.closeCursor,
         Event.setIso conn.isolation] ∧
      Event.commitTx ∉ (get_cursor commitFlag lvl conn body).trace) := by
  constructor
  · rintro rfl
    exact ⟨rfl, rfl⟩
  · rintro e rfl
    refine ⟨rfl, rfl, ?_⟩
    simp [get_cursor]

/-- Witness for C3 at a concrete scope execution. -/
theorem c3_witness :
    (get_cursor true 1 ⟨0⟩ (.ok ())).result = .ok () ∧
    (get_cursor true 1 ⟨0⟩ (.ok ())).trace =
      [Event.setIso 1, Event.commitTx, Event.closeCursor, Event.setIso 0] :=
  (c3_get_cursor_commit_rollback 1 ⟨0⟩ (.ok ()) true).1 rfl

/-- C9: every pass through `get_cursor` — normal or exceptional, with or
without the commit flag — leaves the connection at its original isolation
level, and the very last action of the scope is that restoration. -/
theorem c9_isolation_restored (commitFlag : Bool) (lvl : Nat) (conn : Conn)
    (body : Except PyErr Unit) :
    (get_cursor commitFlag lvl conn body).conn.isolation = conn.isolation ∧
    (get_cursor commitFlag lvl conn body).trace.getLast? =
      some (Event.setIso conn.isolation) := by
  cases body <;> cases commitFlag <;> exact ⟨rfl, rfl⟩

set_option maxRecDepth 8000 in
/-- C2 (code bug, evaluated at the failing input): for the repository's own
`__main__` example record, `enter_record` builds an upsert whose SQL text
reads `… ON CONFLICT DO UPDATE SET …` with no conflict target anywhere —
`ON CONFLICT (` never occurs — although the method has no parameter through
which a caller could supply one; PostgreSQL rejects `ON CONFLICT DO UPDATE`
without a conflict target, so the statement can never execute. -/
theorem c2_enter_record_no_conflict_target :
    enter_record_plan "stock_indicators"
        [("symbol", "AAPL"), ("indicator_type", "RSI")] =
      .ok (enter_record_query "stock_indicators" ["symbol", "indicator_type"],
        ["AAPL", "RSI"]) ∧
    renderSQL (enter_record_query "stock_indicators"
        ["symbol", "indicator_type"]) =
      "INSERT INTO \"stock_indicators\" (\"symbol\", \"indicator_type\") VALUES (%s, %s) ON CONFLICT DO UPDATE SET \"symbol\" = EXCLUDED.\"symbol\", \"indicator_type\" = EXCLUDED.\"indicator_type\"" ∧
    isSubstrOf "ON CONFLICT (".data (renderSQL (enter_record_query
      "stock_indicators" ["symbol", "indicator_type"])).data = false := by
  refine ⟨by decide, by decide, by decide⟩

/-- C6: in upsert mode with validated identifiers and a declared conflict
key, a bulk upsert of K rows reports exactly K affected rows, regardless of
duplicate keys within the batch — each of the K single-row statements run
by `executemany` inserts or updates exactly one row and `psycopg2`
accumulates the row counts; `bulk_insert_dicts` inherits the same count for
K homogeneous records (those whose extraction against the first record's
columns succeeds). -/
theorem c6_bulk_upsert_affects_k {α : Type} [DecidableEq α] (tn : String)
    (columns cc : List String) (vl : List (List α)) (t : List (List α))
    (records : List (List (String × α)))
    (h1 : (check_ident tn).isOk = true)
    (h3 : cc ≠ [])
    (h4 : ∀ c ∈ cc, (check_ident c).isOk = true) :
    ((∀ c ∈ columns, (check_ident c).isOk = true) →
      bulk_insert tn columns vl cc true (some t) =
        .ok (vl.length, some (execMany true columns cc t vl).1))
    ∧ (∀ r0 rs, records = r0 :: rs →
        (∀ c ∈ r0.map Prod.fst, (check_ident c).isOk = true) →
        ∀ vl2, extractRows (r0.map Prod.fst) records = .ok vl2 →
        bulk_insert_dicts tn records cc true (some t) =
          .ok (records.length,
            some (execMany true (r0.map Prod.fst) cc t vl2).1)) := by
  constructor
  · intro h2
    rw [bulk_insert_upsert_eq tn columns cc vl t h1 h2 h3 h4,
      execMany_upsert_count]
  · rintro r0 rs rfl h2 vl2 hex
    have hred : bulk_insert_dicts tn (r0 :: rs) cc true (some t) =
        match extractRows (r0.map Prod.fst) (r0 :: rs) with
        | .error e => Except.error e
        | .ok values_list =>
            bulk_insert tn (r0.map Prod.fst) values_list cc true (some t) :=
      rfl
    rw [hred, hex]
    show bulk_insert tn (r0.map Prod.fst) vl2 cc true (some t) =
      Except.ok ((r0 :: rs).length,
        some (execMany true (r0.map Prod.fst) cc t vl2).1)
    rw [bulk_insert_upsert_eq tn (r0.map Prod.fst) cc vl2 t h1 h2 h3 h4,
      execMany_upsert_count,
      extractRows_length (r0.map Prod.fst) (r0 :: rs) vl2 hex]

/-- Witness for C6 at a concrete batch with a duplicate conflict key:
three rows (two sharing the key `"AAPL"`) report three affected rows. -/
theorem c6_witness :
    bulk_insert "stock_data" ["symbol", "price"]
        [["AAPL", "10"], ["GOOG", "20"], ["AAPL", "12"]] ["symbol"] true
        (some []) =
      .ok (3, some (execMany true ["symbol", "price"] ["symbol"] []
        [["AAPL", "10"], ["GOOG", "20"], ["AAPL", "12"]]).1) :=
  (c6_bulk_upsert_affects_k "stock_data" ["symbol", "price"] ["symbol"]
      [["AAPL", "10"], ["GOOG", "20"], ["AAPL", "12"]] [] []
      (by decide) (by decide) (by decide)).1 (by decide)

/-- C7 (counterexample): the claim says an empty batch returns `0` without
raising for every table name, but `bulk_insert` validates the table name
before the empty-batch check, so an invalid name raises `ValueError` even
with an empty batch. -/
theorem c7_counterexample :
    bulk_insert "bad;name" ([] : List String) ([] : List (List Nat)) [] true
        (some []) =
      .error (.valueError "Invalid SQL identifier: bad;name") := by
  decide

/-- C7 (amended): an empty batch is a no-op returning `0` that leaves the
store untouched — unconditionally for `bulk_insert_dicts` (its empty-list
check comes first), and for `bulk_insert` provided the table and column
names pass identifier validation, an invalid name raising `ValueError`
before the empty-batch check (still without touching the store). -/
theorem c7_empty_batch {α : Type} [DecidableEq α] (tn : String)
    (columns cc : List String) (ups : Bool) (st : Option (List (List α)))
    (h1 : (check_ident tn).isOk = true)
    (h2 : ∀ c ∈ columns, (check_ident c).isOk = true) :
    bulk_insert tn columns ([] : List (List α)) cc ups st = .ok (0, st) ∧
    (∀ tn2 : String,
      bulk_insert_dicts tn2 ([] : List (List (String × α))) cc ups st =
        .ok (0, st)) := by
  constructor
  · unfold bulk_insert bulk_insert_plan
    rw [check_ident_ok_of_isOk tn h1, (checkAll_ok_iff columns).mpr h2]
    rfl
  · intro tn2
    rfl

/-- Witness for C7 at a concrete table. -/
theorem c7_witness :
    bulk_insert "stock_data" ["symbol"] ([] : List (List Nat)) [] false
        (some []) = .ok (0, some []) ∧
    (∀ tn2 : String,
      bulk_insert_dicts tn2 ([] : List (List (String × Nat))) [] false
        (some []) = .ok (0, some [])) :=
  c7_empty_batch "stock_data" ["symbol"] [] false (some [])
    (by decide) (by decide)

/-- C8 (counterexample): the claim says an empty column list passed to
`create_table` fails with a validation error, but `create_table` merely
prints and returns: no error is raised (and no statement is built). -/
theorem c8_counterexample : create_table_plan "t" [] true = .ok none := by
  decide

/-- C8 (amended): an empty record passed to `enter_record` and a missing
conflict-column set passed to `bulk_insert` in upsert mode with a non-empty
batch each raise `ValueError` synchronously, before any statement reaches
the store; `create_table` with an empty column list likewise issues no
statement, but signals by printing and returning rather than raising. -/
theorem c8_validation_errors {α : Type} (tn : String)
    (h1 : (check_ident tn).isOk = true) :
    enter_record_plan (α := α) tn [] =
        .error (.valueError ("No values to insert into " ++ tn)) ∧
    (∀ (columns : List String) (vl : List (List α)),
      (∀ c ∈ columns, (check_ident c).isOk = true) → vl ≠ [] →
      bulk_insert_plan tn columns vl [] true =
        .error (.valueError
          "bulk_insert with upsert=True requires conflict_columns parameter")) ∧
    (∀ ife, create_table_plan tn [] ife = .ok none) := by
  refine ⟨?_, ?_, ?_⟩
  · unfold enter_record_plan
    rw [check_ident_ok_of_isOk tn h1]
    rfl
  · intro columns vl h2 hne
    unfold bulk_insert_plan
    rw [check_ident_ok_of_isOk tn h1, (checkAll_ok_iff columns).mpr h2]
    have hv : vl.isEmpty = false := by
      cases vl
      · exact absurd rfl hne
      · rfl
    simp [hv]
  · intro ife
    unfold create_table_plan
    rw [check_ident_ok_of_isOk tn h1]
    rfl

/-- Witness for C8 at concrete inputs. -/
theorem c8_witness :
    enter_record_plan (α := Nat) "stock_data" [] =
        .error (.valueError "No values to insert into stock_data") ∧
    bulk_insert_plan "stock_data" ["symbol"] [[1]] [] true =
        .error (.valueError
          "bulk_insert with upsert=True requires conflict_columns parameter") ∧
    create_table_plan "stock_data" [] true = .ok none := by
  have h := c8_validation_errors (α := Nat) "stock_data" (by decide)
  exact ⟨h.1, h.2.1 ["symbol"] [[1]] (by decide) (by decide), h.2.2 true⟩

/-- C10: when the store rejects the bulk statement with a database error
(`psycopg2.Error`), `bulk_insert` swallows the error and returns `0` — the
very value it returns for an empty batch — so a failed non-empty bulk
upsert is indistinguishable from the empty-batch no-op by return value. -/
theorem c10_pg_error_swallowed {α : Type} [DecidableEq α] (tn : String)
    (columns cc : List String) (vl : List (List α))
    (h1 : (check_ident tn).isOk = true)
    (h2 : ∀ c ∈ columns, (check_ident c).isOk = true)
    (h3 : cc ≠ [])
    (h4 : ∀ c ∈ cc, (check_ident c).isOk = true) :
    bulk_insert tn columns vl cc true (none : Option (List (List α))) =
      .ok (0, none) ∧
    bulk_insert tn columns ([] : List (List α)) cc true none =
      .ok (0, none) := by
  have hcc : cc.isEmpty = false := by
    cases cc
    · exact absurd rfl h3
    · rfl
  constructor
  · unfold bulk_insert bulk_insert_plan
    rw [check_ident_ok_of_isOk tn h1, (checkAll_ok_iff columns).mpr h2,
      (checkAll_ok_iff cc).mpr h4]
    cases he : vl.isEmpty <;> simp [hcc]
  · unfold bulk_insert bulk_insert_plan
    rw [check_ident_ok_of_isOk tn h1, (checkAll_ok_iff columns).mpr h2]
    rfl

/-- Witness for C10: a failing two-row batch and the empty batch both
return `0`. -/
theorem c10_witness :
    bulk_insert "stock_data" ["symbol"] [["AAPL"], ["GOOG"]] ["symbol"] true
        (none : Option (List (List String))) = .ok (0, none) ∧
    bulk_insert "stock_data" ["symbol"] ([] : List (List String)) ["symbol"]
        true none = .ok (0, none) :=
  c10_pg_error_swallowed "stock_data" ["symbol"] ["symbol"]
    [["AAPL"], ["GOOG"]] (by decide) (by decide) (by decide) (by decide)

/-- One pool operation preserves the total connection count. -/
lemma Pool.step_total (p : Pool) (op : PoolOp) : (p.step op).total = p.total := by
  cases op with
  | acq =>
      unfold Pool.step Pool.acquire
      rcases hav : p.available with _ | ⟨c, rest⟩
      · simp [Pool.total, hav]
      · simp only [Pool.total, hav]
        simp [List.length_cons]
        omega
  | rel c =>
      unfold Pool.step Pool.release
      by_cases hc : c ∈ p.leased
      · have hpos : 0 < p.leased.length := List.length_pos_of_mem hc
        simp only [hc, if_true, Pool.total, List.length_cons,
          List.length_erase_of_mem hc]
        omega
      · simp [hc]

/-- One pool operation preserves distinctness of the pooled connections. -/
lemma Pool.step_nodup (p : Pool) (op : PoolOp)
    (h : (p.available ++ p.leased).Nodup) :
    ((p.step op).available ++ (p.step op).leased).Nodup := by
  cases op with
  | acq =>
      unfold Pool.step Pool.acquire
      rcases hav : p.available with _ | ⟨c, rest⟩
      · simpa [hav] using h
      · rw [hav] at h
        simp only
        exact List.nodup_middle.mpr h
  | rel c =>
      unfold Pool.step Pool.release
      by_cases hc : c ∈ p.leased
      · simp only [hc, if_true]
        rcases List.nodup_append.mp h with ⟨ha, hl, hd⟩
        have hca : c ∉ p.available := fun hmem => hd hmem hc
        have hce : c ∉ p.leased.erase c := fun hmem =>
          ((List.Nodup.mem_erase_iff hl).mp hmem).1 rfl
        refine List.nodup_cons.mpr ⟨?_, List.nodup_append.mpr
          ⟨ha, hl.erase c, ?_⟩⟩
        · intro hmem
          rcases List.mem_append.mp hmem with hmem | hmem
          · exact hca hmem
          · exact hce hmem
        · intro a hma hme
          exact hd hma (List.erase_subset c p.leased hme)
      · simpa [hc] using h

/-- Well-formedness is preserved by every pool operation. -/
lemma Pool.step_wf (p : Pool) (op : PoolOp) (h : p.WF) : (p.step op).WF := by
  rcases h with ⟨h1, h2, h3⟩
  have hmm : (p.step op).minSize = p.minSize ∧ (p.step op).maxSize = p.maxSize := by
    cases op with
    | acq =>
        unfold Pool.step Pool.acquire
        rcases hav : p.available with _ | ⟨c, rest⟩ <;> simp
    | rel c =>
        unfold Pool.step Pool.release
        by_cases hc : c ∈ p.leased <;> simp [hc]
  refine ⟨?_, ?_, Pool.step_nodup p op h3⟩
  · rw [Pool.step_total, hmm.1]; exact h1
  · rw [Pool.step_total, hmm.2]; exact h2

/-- Running any operation sequence preserves well-formedness and the total. -/
lemma Pool.run_wf_total (p : Pool) (ops : List PoolOp) (h : p.WF) :
    (p.run ops).WF ∧ (p.run ops).total = p.total := by
  induction ops generalizing p with
  | nil => exact ⟨h, rfl⟩
  | cons op ops ih =>
      rcases ih (p.step op) (Pool.step_wf p op h) with ⟨hw, ht⟩
      refine ⟨hw, ?_⟩
      show ((p.step op).run ops).total = p.total
      rw [ht, Pool.step_total]

/-- C5 (spec-modelled): the pool keeps `min_size ≤ available + leased ≤
max_size` across any sequence of acquire/release operations, the total
`available + leased` count is conserved (so after acquire/release pairs it
equals the initial available count), and `acquire` hands out a connection
that no other in-flight lease holds, keeping the leased set duplicate-free. -/
theorem c5_pool_invariant (p : Pool) (ops : List PoolOp) (h : p.WF) :
    ((p.run ops).WF ∧ (p.run ops).total = p.total) ∧
    (∀ c p1, p.acquire = some (c, p1) →
      c ∉ p.leased ∧ c ∈ p1.leased ∧ p1.leased.Nodup) := by
  refine ⟨Pool.run_wf_total p ops h, ?_⟩
  intro c p1 hacq
  rcases h with ⟨_, _, h3⟩
  unfold Pool.acquire at hacq
  rcases hav : p.available with _ | ⟨c0, rest⟩
  · rw [hav] at hacq; exact absurd hacq (by simp)
  · rw [hav] at hacq
    have hpair := Option.some_inj.mp hacq
    have hcc : c0 = c := congrArg Prod.fst hpair
    have hpp : ({ p with available := rest, leased := c0 :: p.leased } : Pool)
        = p1 := congrArg Prod.snd hpair
    subst hcc
    subst hpp
    rw [hav] at h3
    have hnodup : (c0 :: (rest ++ p.leased)).Nodup := h3
    rcases List.nodup_cons.mp hnodup with ⟨hnotmem, hrest⟩
    have hcl : c0 ∉ p.leased := fun hm =>
      hnotmem (List.mem_append.mpr (Or.inr hm))
    exact ⟨hcl, List.mem_cons_self _ _,
      List.nodup_cons.mpr ⟨hcl, (List.nodup_append.mp hrest).2.1⟩⟩

/-- Witness for C5 at a concrete pool and operation sequence. -/
theorem c5_pool_witness :
    ((Pool.run ⟨0, 2, [10, 11], []⟩ [PoolOp.acq, PoolOp.rel 10]).WF ∧
      (Pool.run ⟨0, 2, [10, 11], []⟩ [PoolOp.acq, PoolOp.rel 10]).total =
        (⟨0, 2, [10, 11], []⟩ : Pool).total) ∧
    (∀ c p1, (⟨0, 2, [10, 11], []⟩ : Pool).acquire = some (c, p1) →
      c ∉ (⟨0, 2, [10, 11], []⟩ : Pool).leased ∧ c ∈ p1.leased ∧
        p1.leased.Nodup) :=
  c5_pool_invariant ⟨0, 2, [10, 11], []⟩ [PoolOp.acq, PoolOp.rel 10]
    ⟨by decide, by decide, by decide⟩

end StockPipe
